import Mathlib

/-!
pretty-flags: registry and usage renderer.

A shallow embedding of `flags.go` (package `prettyflags`): the section registry
filled by `addToFlagMap`, and the printers `PrintAppHeader`,
`PrintUsageSectionHeader`, `PrintUsageLine` and the closure returned by `Usage`.

Modelling conventions.

* A Go `string` is a Lean `String`; the width a `%-20s` directive pads to is counted
  in characters (runes), which is `String.length`.
* An `io.Writer` is a `Writer` value. Printing does not mutate anything in the model:
  every printer returns the list of `Write` records it performs, in order.
* The colour functions of `github.com/fatih/color` are kept as a tag on each record
  (`white`, `blue`, `darkWhite`); escape sequences themselves are not part of the text.
  The `Sprint` helpers `y` and `dw` therefore return the plain `fmt.Sprint` text.
* A `*string` is a `StringPtr` (address and pointee) or `none` for `nil`.
* `map[string][]*CommandLineFlag` is a function `String → Option (List CommandLineFlag)`,
  `none` meaning that the key is absent.
* A Go panic is the flag `panicked` of a `Trace` (for `Usage`) or the result `none`
  (for `addToFlagMap`).
* The `%v` text of a `float64` comes from Go's `strconv`; it is the parameter `ff`
  (from the IEEE-754 bit pattern to text) of every definition that formats a value.
* The calls into the standard `flag` package made by the `AddFlag…` methods are outside
  the registry and are not modelled.
-/

namespace PrettyFlags

set_option maxRecDepth 100000

/-! ## Data model -/

/-- The dynamic type and value held by the `interface{}` default of a flag. -/
inductive Value where
  | bool (b : Bool)
  | string (s : String)
  | int (i : Int)
  | int64 (i : Int)
  | uint (n : Nat)
  | uint64 (n : Nat)
  | float64 (bits : Nat)
  deriving DecidableEq

/-- A non-nil `*string`: the address it holds and the string stored there. -/
structure StringPtr where
  addr : Nat
  deref : String
  deriving DecidableEq

/-- `type CommandLineFlag struct { Name; Value; Usage; AltNames *[]string }`. -/
structure CommandLineFlag where
  Name : String
  Value : Value
  Usage : String
  AltNames : Option (List String)
  deriving DecidableEq

/-- `type flagHandler struct`. -/
structure flagHandler where
  flagMap : String → Option (List CommandLineFlag)
  flagKeys : List String
  app : String
  version : Option StringPtr
  branch : Option StringPtr
  commit : Option StringPtr
  tag : Option StringPtr

/-- The dynamic type of the `section interface{}` argument of `addToFlagMap`. -/
inductive SectionArg where
  | str (s : String)
  | strs (l : List String)
  | other
  deriving DecidableEq

/-- Destinations a printer can write to. -/
inductive Writer where
  | stdout
  | stderr
  | buffer (id : Nat)
  deriving DecidableEq

/-- The colour attribute a write is made with (`plain` for the `fmt` package itself). -/
inductive Colour where
  | FgHiWhite
  | FgHiBlue
  | FgWhite
  | plain
  deriving DecidableEq

/-- One formatted write: where it goes, in which colour, and its text. -/
structure Write where
  dst : Writer
  colour : Colour
  text : String
  deriving DecidableEq

/-- What a run of the usage closure did: its writes in order, and whether it panicked. -/
structure Trace where
  writes : List Write
  panicked : Bool
  deriving DecidableEq

/-! ## Formatting (`fmt`) -/

/-- The text `fmt` gives a pointer under `%v`: `0x` and the address in lower-case
hexadecimal, `<nil>` for the nil pointer. -/
def Sprint (p : Option StringPtr) : String :=
  match p with
  | none => "<nil>"
  | some q => "0x" ++ String.mk (Nat.toDigits 16 q.addr)

/-- The text `fmt` gives a default value under `%v`. -/
def fmtV (ff : Nat → String) (v : Value) : String :=
  match v with
  | .bool b => if b then "true" else "false"
  | .string s => s
  | .int i => toString i
  | .int64 i => toString i
  | .uint n => toString n
  | .uint64 n => toString n
  | .float64 bits => ff bits

/-- Left-justification of `%-Ns`: blanks are appended up to `width` characters. -/
def padRight (width : Nat) (s : String) : String :=
  s ++ String.mk (List.replicate (width - s.length) ' ')

/-- `level1 = "    "`. -/
def level1 : String := "    "

/-- `parameterFormat = "%s%-20s %-6s %-20v %s\n"` applied to its five operands; the
fourth operand is passed as its `%v` text. -/
def parameterFormat (a b c d e : String) : String :=
  a ++ padRight 20 b ++ " " ++ padRight 6 c ++ " " ++ padRight 20 d ++ " " ++ e ++ "\n"

/-- `white = color.New(color.FgHiWhite).FprintfFunc()`, given the formatted text. -/
def white (output : Writer) (text : String) : Write := ⟨output, .FgHiWhite, text⟩

/-- `blue = color.New(color.FgHiBlue).FprintfFunc()`, given the formatted text. -/
def blue (output : Writer) (text : String) : Write := ⟨output, .FgHiBlue, text⟩

/-- `darkWhite = color.New(color.FgWhite).FprintfFunc()`, given the formatted text. -/
def darkWhite (output : Writer) (text : String) : Write := ⟨output, .FgWhite, text⟩

/-- `y = color.New(color.FgHiYellow).SprintFunc()`: `fmt.Sprint` of its argument. -/
def y (p : Option StringPtr) : String := Sprint p

/-- `dw = color.New(color.FgWhite).SprintFunc()`: `fmt.Sprint` of its argument. -/
def dw (p : Option StringPtr) : String := Sprint p

/-- `fmt.Println("")`: one newline on standard output. -/
def Println (s : String) : Write := ⟨.stdout, .plain, s ++ "\n"⟩

/-! ## Construction and registration -/

/-- `NewFlagHandler(app, version, branch, commit, tag)`; `naAddr` is the address of
the local variable `na`. -/
def NewFlagHandler (naAddr : Nat) (app : String)
    (version branch commit tag : Option StringPtr) : flagHandler :=
  let na : StringPtr := ⟨naAddr, "N/A"⟩
  let version := if version = none then some na else version
  let branch := if branch = none then some na else branch
  let commit := if commit = none then some na else commit
  let tag := if tag = none then some na else tag
  { flagMap := fun _ => none
    flagKeys := []
    app := app
    version := version
    branch := branch
    commit := commit
    tag := tag }

/-- `m[k] = v` on the map model. -/
def mapSet (m : String → Option (List CommandLineFlag)) (k : String)
    (v : List CommandLineFlag) : String → Option (List CommandLineFlag) :=
  fun k2 => if k2 = k then some v else m k2

/-- The body of the loop `for _, section := range sections` of `addToFlagMap`. -/
def addToSection (name : String) (defaultValue : Value) (usage : String)
    (altNames : Option (List String)) (f : flagHandler) (sec : String) : flagHandler :=
  let f1 : flagHandler :=
    match f.flagMap sec with
    | none => { f with flagMap := mapSet f.flagMap sec [], flagKeys := f.flagKeys ++ [sec] }
    | some _ => f
  let clf : CommandLineFlag :=
    { Name := name, Value := defaultValue, Usage := usage, AltNames := altNames }
  { f1 with flagMap := mapSet f1.flagMap sec ((f1.flagMap sec).getD [] ++ [clf]) }

/-- `addToFlagMap`; `none` is the panic `"Invalid section type"`. -/
def addToFlagMap (f : flagHandler) (name : String) (sec : SectionArg)
    (defaultValue : Value) (usage : String) (altNames : Option (List String)) :
    Option flagHandler :=
  match sec with
  | .str s => some ([s].foldl (addToSection name defaultValue usage altNames) f)
  | .strs l => some (l.foldl (addToSection name defaultValue usage altNames) f)
  | .other => none

/-- `AddFlagBool` (registry part). -/
def AddFlagBool (f : flagHandler) (name : String) (sec : SectionArg) (defaultValue : Bool)
    (usage : String) (altNames : Option (List String)) : Option flagHandler :=
  addToFlagMap f name sec (.bool defaultValue) usage altNames

/-- `AddFlagString` (registry part). -/
def AddFlagString (f : flagHandler) (name : String) (sec : SectionArg) (defaultValue : String)
    (usage : String) (altNames : Option (List String)) : Option flagHandler :=
  addToFlagMap f name sec (.string defaultValue) usage altNames

/-- `AddFlagInt` (registry part). -/
def AddFlagInt (f : flagHandler) (name : String) (sec : SectionArg) (defaultValue : Int)
    (usage : String) (altNames : Option (List String)) : Option flagHandler :=
  addToFlagMap f name sec (.int defaultValue) usage altNames

/-- `AddFlagInt64` (registry part). -/
def AddFlagInt64 (f : flagHandler) (name : String) (sec : SectionArg) (defaultValue : Int)
    (usage : String) (altNames : Option (List String)) : Option flagHandler :=
  addToFlagMap f name sec (.int64 defaultValue) usage altNames

/-- `AddFlagUnint` (registry part). -/
def AddFlagUnint (f : flagHandler) (name : String) (sec : SectionArg) (defaultValue : Nat)
    (usage : String) (altNames : Option (List String)) : Option flagHandler :=
  addToFlagMap f name sec (.uint defaultValue) usage altNames

/-- `AddFlagUint64` (registry part). -/
def AddFlagUint64 (f : flagHandler) (name : String) (sec : SectionArg) (defaultValue : Nat)
    (usage : String) (altNames : Option (List String)) : Option flagHandler :=
  addToFlagMap f name sec (.uint64 defaultValue) usage altNames

/-- `AddFlagFloat64` (registry part); the default is given by its bit pattern. -/
def AddFlagFloat64 (f : flagHandler) (name : String) (sec : SectionArg) (defaultValue : Nat)
    (usage : String) (altNames : Option (List String)) : Option flagHandler :=
  addToFlagMap f name sec (.float64 defaultValue) usage altNames

/-- One call of an `AddFlag…` method: its arguments. -/
structure Registration where
  name : String
  sec : SectionArg
  defaultValue : Value
  usage : String
  altNames : Option (List String)
  deriving DecidableEq

/-- The `AddFlag…` method selected by the type of the default value. -/
def register (f : flagHandler) (r : Registration) : Option flagHandler :=
  match r.defaultValue with
  | .bool b => AddFlagBool f r.name r.sec b r.usage r.altNames
  | .string s => AddFlagString f r.name r.sec s r.usage r.altNames
  | .int i => AddFlagInt f r.name r.sec i r.usage r.altNames
  | .int64 i => AddFlagInt64 f r.name r.sec i r.usage r.altNames
  | .uint n => AddFlagUnint f r.name r.sec n r.usage r.altNames
  | .uint64 n => AddFlagUint64 f r.name r.sec n r.usage r.altNames
  | .float64 x => AddFlagFloat64 f r.name r.sec x r.usage r.altNames

/-- A sequence of registrations, stopping at the first panic. -/
def registerAll (f : flagHandler) : List Registration → Option flagHandler
  | [] => some f
  | r :: rest =>
    match register f r with
    | none => none
    | some f1 => registerAll f1 rest

/-! ## Rendering -/

/-- `PrintAppHeader`. -/
def PrintAppHeader (f : flagHandler) (output : Writer) : List Write :=
  [ white output ("[+] " ++ f.app ++ "\n"),
    white output (level1 ++ "Version: " ++ y f.version ++ " [ Branch: " ++ dw f.branch
      ++ " | Commit: " ++ dw f.commit ++ " | Tag: " ++ dw f.tag ++ " ]\n") ]

/-- `PrintUsageSectionHeader`. -/
def PrintUsageSectionHeader (output : Writer) (sec : String) : List Write :=
  [ blue output ("\n" ++ level1 ++ sec ++ ":\n"),
    white output (parameterFormat level1 "Parameter" "Short" "Default" "Description") ]

/-- `PrintUsageLine`. -/
def PrintUsageLine (ff : Nat → String) (output : Writer) (parameter : String)
    (short : String) (defaultValue : Value) (description : String) : List Write :=
  let defaultValue : Value :=
    match defaultValue with
    | .string s => if s = "" then .string "\"\"" else defaultValue
    | _ => defaultValue
  [ darkWhite output (parameterFormat level1 parameter short (fmtV ff defaultValue) description) ]

/-- The inner loop of `Usage`, `for _, flg := range f.flagMap[key]`. Indexing an empty
`*flg.AltNames` at `[0]` panics. -/
def usageFlags (ff : Nat → String) (output : Writer) : List CommandLineFlag → Trace
  | [] => ⟨[], false⟩
  | flg :: rest =>
    let param := "--" ++ flg.Name
    let short : Option String :=
      match flg.AltNames with
      | none => some ""
      | some alts => (alts.get? 0).map (fun a => "-" ++ a)
    match short with
    | none => ⟨[], true⟩
    | some short =>
      let t := usageFlags ff output rest
      ⟨PrintUsageLine ff output param short flg.Value flg.Usage ++ t.writes, t.panicked⟩

/-- The outer loop of `Usage`, `for _, key := range f.flagKeys`. -/
def usageSections (ff : Nat → String) (f : flagHandler) (output : Writer) :
    List String → Trace
  | [] => ⟨[], false⟩
  | key :: rest =>
    let h := PrintUsageSectionHeader output (key ++ " Options")
    let t := usageFlags ff output ((f.flagMap key).getD [])
    if t.panicked then ⟨h ++ t.writes, true⟩
    else
      let t2 := usageSections ff f output rest
      ⟨h ++ t.writes ++ t2.writes, t2.panicked⟩

/-- The closure returned by `Usage(output)`, run once. -/
def Usage (ff : Nat → String) (f : flagHandler) (output : Writer) : Trace :=
  let t := usageSections ff f output f.flagKeys
  if t.panicked then ⟨PrintAppHeader f output ++ t.writes, true⟩
  else ⟨PrintAppHeader f output ++ t.writes ++ [Println ""], false⟩

/-- The text of a list of writes, colours dropped. -/
def textOf : List Write → String
  | [] => ""
  | w :: ws => w.text ++ textOf ws

/-- The text that reached one destination. -/
def textTo (dst : Writer) (ws : List Write) : String :=
  textOf (ws.filter (fun w => w.dst = dst))

/-! ## Specification vocabulary -/

/-- Concatenation of a list of texts. -/
def concat : List String → String
  | [] => ""
  | s :: rest => s ++ concat rest

/-- The section names a section argument stands for, in order. -/
def sectionsOf (sec : SectionArg) : List String :=
  match sec with
  | .str s => [s]
  | .strs l => l
  | .other => []

/-- The descriptor a registration stores. -/
def descriptorOf (r : Registration) : CommandLineFlag :=
  { Name := r.name, Value := r.defaultValue, Usage := r.usage, AltNames := r.altNames }

/-- Every (section, descriptor) pair a sequence of registrations files, in the order
in which the calls and, within a call, the section names come. -/
def entriesOf (ops : List Registration) : List (String × CommandLineFlag) :=
  ops.flatMap (fun r => (sectionsOf r.sec).map (fun s => (s, descriptorOf r)))

/-- The distinct elements of a list in the order of their first occurrence. -/
def firstSeen : List String → List String
  | [] => []
  | x :: xs => x :: (firstSeen xs).filter (fun z => z ≠ x)

/-- Section names in the order in which they were first registered. -/
def sectionOrder (ops : List Registration) : List String :=
  firstSeen ((entriesOf ops).map Prod.fst)

/-- The descriptors registered under one section, in registration order. -/
def flagsIn (ops : List Registration) (s : String) : List CommandLineFlag :=
  ((entriesOf ops).filter (fun e => e.1 = s)).map Prod.snd

/-- The registry holds exactly the entries `es`: the keys are the section names of `es`
in first-occurrence order, and a section maps to its descriptors in order. -/
def Holds (f : flagHandler) (es : List (String × CommandLineFlag)) : Prop :=
  f.flagKeys = firstSeen (es.map Prod.fst) ∧
  ∀ k, f.flagMap k =
    if k ∈ es.map Prod.fst then some ((es.filter (fun e => e.1 = k)).map Prod.snd) else none

/-- The short column of a flag: `-` and its first alternate name, empty when the flag
has no alternate. -/
def shortColumn (altNames : Option (List String)) : String :=
  match altNames with
  | some (a :: _) => "-" ++ a
  | _ => ""

/-- The row of one descriptor: parameter `--name`, the short column, the stored default
and the usage text, printed by `PrintUsageLine`. -/
def rowOf (ff : Nat → String) (output : Writer) (c : CommandLineFlag) : List Write :=
  PrintUsageLine ff output ("--" ++ c.Name) (shortColumn c.AltNames) c.Value c.Usage

/-- The text of one section: the header titled `<section> Options`, then one row per
flag of the section in registration order. -/
def sectionBlock (ff : Nat → String) (output : Writer) (ops : List Registration)
    (s : String) : String :=
  textOf (PrintUsageSectionHeader output (s ++ " Options")) ++
    concat ((flagsIn ops s).map (fun c => textOf (rowOf ff output c)))

/-- The usage text: the app header, then the sections in first-registration order. -/
def usageText (ff : Nat → String) (f : flagHandler) (output : Writer)
    (ops : List Registration) : String :=
  textOf (PrintAppHeader f output) ++ concat ((sectionOrder ops).map (sectionBlock ff output ops))

/-- The texts of the section title writes (the ones made through `blue`), in order. -/
def sectionTitles (ws : List Write) : List String :=
  (ws.filter (fun w => w.colour = Colour.FgHiBlue)).map (fun w => w.text)

/-- The single registration of the end-to-end scenario: boolean flag `verbose`. -/
def verboseOps : List Registration :=
  [⟨"verbose", .str "General", .bool false, "enable verbose logging", none⟩]

/-- A handler without version metadata, before any registration. -/
def emptyHandler : flagHandler :=
  NewFlagHandler 0xc000014090 "app" none none none none

/-- The registry of the end-to-end scenario. -/
def verboseHandler : flagHandler :=
  addToSection "verbose" (.bool false) "enable verbose logging" none emptyHandler "General"

/-- Registrations with a list of sections that repeats a name, and with an empty list. -/
def mixedOps : List Registration :=
  [⟨"verbose", .str "General", .bool false, "enable verbose logging", none⟩,
   ⟨"host", .strs ["Network", "General", "Network"], .string "", "host name", some ["H"]⟩,
   ⟨"quiet", .strs [], .bool false, "no output", none⟩]

/-- The registry `mixedOps` builds. -/
def mixedHandler : flagHandler :=
  ["Network", "General", "Network"].foldl
    (addToSection "host" (.string "") "host name" (some ["H"])) verboseHandler

/-- The app header as the specification words it: `[+] <app>`, then the version line
with the four strings that were supplied, `N/A` standing for an absent one. -/
def claimedAppHeader (app : String) (version branch commit tag : Option String) : String :=
  "[+] " ++ app ++ "\n" ++
    "    Version: " ++ version.getD "N/A" ++ " [ Branch: " ++ branch.getD "N/A" ++
    " | Commit: " ++ commit.getD "N/A" ++ " | Tag: " ++ tag.getD "N/A" ++ " ]\n"

/-- The column-header row: the four titles in the columns of `parameterFormat`. -/
def columnHeaderRow : String :=
  "    Parameter            Short  Default              Description\n"

/-- The section header as the specification words it: a blank line, the indent and the
title suffixed with ` Options`, then the column-header row. -/
def claimedSectionHeader (title : String) : String :=
  "\n" ++ level1 ++ title ++ " Options" ++ "\n" ++ columnHeaderRow

/-- The usage row as the specification words it, the default column holding the `%v`
text of the default. -/
def claimedRow (ff : Nat → String) (p s : String) (d : Value) (t : String) : String :=
  level1 ++ padRight 20 p ++ " " ++ padRight 6 s ++ " " ++ padRight 20 (fmtV ff d) ++ " " ++
    t ++ "\n"

/-- The text shown for a default: its `%v` text, or the quote pair for the empty string. -/
def shownDefault (ff : Nat → String) (d : Value) : String :=
  if d = Value.string "" then "\"\"" else fmtV ff d

/-! ## Lemmas on lists and texts -/

theorem textOf_append (a b : List Write) : textOf (a ++ b) = textOf a ++ textOf b := by
  induction a with
  | nil => simp [textOf]
  | cons w ws ih => simp [textOf, ih, String.append_assoc]

theorem concat_append (a b : List String) : concat (a ++ b) = concat a ++ concat b := by
  induction a with
  | nil => simp [concat]
  | cons w ws ih => simp [concat, ih, String.append_assoc]

theorem mem_firstSeen (l : List String) (s : String) : s ∈ firstSeen l ↔ s ∈ l := by
  induction l with
  | nil => simp [firstSeen]
  | cons x xs ih =>
    simp only [firstSeen, List.mem_cons, List.mem_filter, ih]
    by_cases h : s = x
    · simp [h]
    · simp [h]

theorem firstSeen_snoc (l : List String) (s : String) :
    firstSeen (l ++ [s]) = if s ∈ l then firstSeen l else firstSeen l ++ [s] := by
  induction l with
  | nil => simp [firstSeen]
  | cons x xs ih =>
    have e1 : firstSeen (x :: xs ++ [s]) =
        x :: (firstSeen (xs ++ [s])).filter (fun z => z ≠ x) := rfl
    have e2 : firstSeen (x :: xs) = x :: (firstSeen xs).filter (fun z => z ≠ x) := rfl
    rw [e1, e2, ih]
    by_cases hx : s = x
    · subst hx
      by_cases hs : s ∈ xs
      · simp [hs]
      · simp [hs, List.filter_append]
    · have hx2 : ¬ x = s := fun h => hx h.symm
      by_cases hs : s ∈ xs
      · simp [hs, hx]
      · simp [hs, hx, hx2, List.filter_append]

theorem nodup_firstSeen (l : List String) : (firstSeen l).Nodup := by
  induction l with
  | nil => simp [firstSeen]
  | cons x xs ih =>
    simp only [firstSeen, List.nodup_cons, List.mem_filter]
    exact ⟨by simp, ih.filter _⟩

theorem filter_fst_eq_nil (es : List (String × CommandLineFlag)) (s : String)
    (h : s ∉ es.map Prod.fst) : es.filter (fun e => e.1 = s) = [] := by
  rw [List.filter_eq_nil_iff]
  intro e he
  simp only [decide_eq_true_eq]
  intro h2
  exact h (List.mem_map.mpr ⟨e, he, h2⟩)

/-! ## The registry after registration -/

theorem holds_new (naAddr : Nat) (app : String) (v b c t : Option StringPtr) :
    Holds (NewFlagHandler naAddr app v b c t) [] := by
  simp [Holds, NewFlagHandler, firstSeen]

theorem holds_addToSection (name : String) (d : Value) (u : String)
    (alt : Option (List String)) (f : flagHandler) (s : String)
    (es : List (String × CommandLineFlag)) (h : Holds f es) :
    Holds (addToSection name d u alt f s) (es ++ [(s, ⟨name, d, u, alt⟩)]) := by
  obtain ⟨hk, hm⟩ := h
  by_cases hs : s ∈ es.map Prod.fst
  · have hfs : f.flagMap s = some ((es.filter (fun e => e.1 = s)).map Prod.snd) := by
      rw [hm s, if_pos hs]
    constructor
    · simp only [addToSection, hfs, List.map_append, List.map_cons, List.map_nil,
        firstSeen_snoc, if_pos hs, hk]
    · intro k
      simp only [addToSection, hfs, mapSet, Option.getD_some]
      by_cases hks : k = s
      · subst hks
        simp [List.filter_append]
      · have hsk : ¬ s = k := fun h => hks h.symm
        have hmem : k ∈ List.map Prod.fst (es ++ [(s, (⟨name, d, u, alt⟩ : CommandLineFlag))]) ↔
            k ∈ List.map Prod.fst es := by
          simp [hks]
        simp only [hks, hsk, hm k, List.filter_append, if_false, List.filter_cons,
          List.filter_nil, decide_False, List.append_nil, Bool.false_eq_true]
        exact (if_congr hmem rfl rfl).symm
  · have hfs : f.flagMap s = none := by rw [hm s, if_neg hs]
    constructor
    · simp only [addToSection, hfs, List.map_append, List.map_cons, List.map_nil,
        firstSeen_snoc, if_neg hs, hk]
    · intro k
      simp only [addToSection, hfs, mapSet]
      by_cases hks : k = s
      · subst hks
        simp [List.filter_append, filter_fst_eq_nil es k hs]
      · have hsk : ¬ s = k := fun h => hks h.symm
        have hmem : k ∈ List.map Prod.fst (es ++ [(s, (⟨name, d, u, alt⟩ : CommandLineFlag))]) ↔
            k ∈ List.map Prod.fst es := by
          simp [hks]
        simp only [hks, hsk, hm k, List.filter_append, if_false, List.filter_cons,
          List.filter_nil, decide_False, List.append_nil, Bool.false_eq_true]
        exact (if_congr hmem rfl rfl).symm

theorem holds_foldl (name : String) (d : Value) (u : String) (alt : Option (List String))
    (l : List String) (f : flagHandler) (es : List (String × CommandLineFlag))
    (h : Holds f es) :
    Holds (l.foldl (addToSection name d u alt) f)
      (es ++ l.map (fun s => (s, (⟨name, d, u, alt⟩ : CommandLineFlag)))) := by
  induction l generalizing f es with
  | nil => simpa using h
  | cons s rest ih =>
    have h1 := holds_addToSection name d u alt f s es h
    have h2 := ih _ _ h1
    simpa [List.append_assoc] using h2

theorem register_eq (f : flagHandler) (r : Registration) :
    register f r = addToFlagMap f r.name r.sec r.defaultValue r.usage r.altNames := by
  unfold register
  cases r.defaultValue <;> rfl

theorem holds_register (f f1 : flagHandler) (r : Registration)
    (es : List (String × CommandLineFlag)) (h : Holds f es) (hr : register f r = some f1) :
    Holds f1 (es ++ (sectionsOf r.sec).map (fun s => (s, descriptorOf r))) := by
  rw [register_eq] at hr
  unfold addToFlagMap at hr
  cases hsec : r.sec with
  | str s =>
    rw [hsec] at hr
    simp only [Option.some.injEq] at hr
    subst hr
    exact holds_foldl r.name r.defaultValue r.usage r.altNames [s] f es h
  | strs l =>
    rw [hsec] at hr
    simp only [Option.some.injEq] at hr
    subst hr
    exact holds_foldl r.name r.defaultValue r.usage r.altNames l f es h
  | other =>
    rw [hsec] at hr
    cases hr

theorem holds_registerAll (ops : List Registration) (f f1 : flagHandler)
    (es : List (String × CommandLineFlag)) (h : Holds f es)
    (hr : registerAll f ops = some f1) : Holds f1 (es ++ entriesOf ops) := by
  induction ops generalizing f es with
  | nil =>
    simp only [registerAll, Option.some.injEq] at hr
    subst hr
    simpa [entriesOf] using h
  | cons r rest ih =>
    simp only [registerAll] at hr
    cases h1 : register f r with
    | none => rw [h1] at hr; cases hr
    | some f2 =>
      rw [h1] at hr
      have h2 := ih f2 _ (holds_register f f2 r es h h1) hr
      simpa [entriesOf, List.append_assoc] using h2

/-! ## The usage closure -/

theorem textOf_flatMap {α : Type} (l : List α) (g : α → List Write) :
    textOf (l.flatMap g) = concat (l.map (fun a => textOf (g a))) := by
  induction l with
  | nil => simp [textOf, concat]
  | cons a rest ih => simp [List.flatMap_cons, textOf_append, concat, ih]

theorem dst_PrintAppHeader (f : flagHandler) (out : Writer) :
    ∀ w ∈ PrintAppHeader f out, w.dst = out := by
  intro w hw
  simp only [PrintAppHeader, white, List.mem_cons, List.mem_singleton, List.not_mem_nil,
    or_false] at hw
  rcases hw with h | h <;> rw [h]

theorem dst_PrintUsageSectionHeader (out : Writer) (s : String) :
    ∀ w ∈ PrintUsageSectionHeader out s, w.dst = out := by
  intro w hw
  simp only [PrintUsageSectionHeader, white, blue, List.mem_cons, List.mem_singleton,
    List.not_mem_nil, or_false] at hw
  rcases hw with h | h <;> rw [h]

theorem dst_PrintUsageLine (ff : Nat → String) (out : Writer) (p s : String) (d : Value)
    (t : String) : ∀ w ∈ PrintUsageLine ff out p s d t, w.dst = out := by
  intro w hw
  simp only [PrintUsageLine, darkWhite, List.mem_singleton] at hw
  rw [hw]

theorem usageFlags_ok (ff : Nat → String) (out : Writer) (l : List CommandLineFlag)
    (h : ∀ c ∈ l, c.AltNames ≠ some []) :
    usageFlags ff out l = ⟨l.flatMap (rowOf ff out), false⟩ := by
  induction l with
  | nil => simp [usageFlags]
  | cons c rest ih =>
    have hrest := ih (fun c2 hc2 => h c2 (List.mem_cons_of_mem _ hc2))
    have hc := h c (List.mem_cons_self _ _)
    unfold usageFlags
    rw [hrest]
    cases hca : c.AltNames with
    | none => simp [rowOf, shortColumn, hca]
    | some alts =>
      cases alts with
      | nil => exact absurd hca hc
      | cons a more => simp [rowOf, shortColumn, hca]

theorem usageSections_ok (ff : Nat → String) (f : flagHandler) (out : Writer)
    (keys : List String)
    (h : ∀ k ∈ keys, ∀ c ∈ (f.flagMap k).getD [], c.AltNames ≠ some []) :
    usageSections ff f out keys =
      ⟨keys.flatMap (fun k => PrintUsageSectionHeader out (k ++ " Options") ++
        ((f.flagMap k).getD []).flatMap (rowOf ff out)), false⟩ := by
  induction keys with
  | nil => simp [usageSections]
  | cons k rest ih =>
    have hrest := ih (fun k2 hk2 => h k2 (List.mem_cons_of_mem _ hk2))
    have hk := usageFlags_ok ff out _ (h k (List.mem_cons_self _ _))
    unfold usageSections
    simp [hk, hrest]

theorem flagMap_getD_of_holds (f : flagHandler) (ops : List Registration)
    (h : Holds f (entriesOf ops)) (k : String) :
    (f.flagMap k).getD [] = flagsIn ops k := by
  rw [h.2 k]
  by_cases hk : k ∈ (entriesOf ops).map Prod.fst
  · simp [hk, flagsIn]
  · simp [hk, flagsIn, filter_fst_eq_nil _ _ hk]

theorem altNames_of_mem_flagsIn (ops : List Registration) (k : String) (c : CommandLineFlag)
    (hc : c ∈ flagsIn ops k) : ∃ r ∈ ops, c.AltNames = r.altNames := by
  simp only [flagsIn, entriesOf, List.mem_map, List.mem_filter, List.mem_flatMap] at hc
  obtain ⟨e, ⟨⟨r, hr, s, _, hs⟩, _⟩, he⟩ := hc
  refine ⟨r, hr, ?_⟩
  rw [← he, ← hs]
  rfl

theorem holds_of_reachable (naAddr : Nat) (app : String) (v b c t : Option StringPtr)
    (ops : List Registration) (f : flagHandler)
    (h : registerAll (NewFlagHandler naAddr app v b c t) ops = some f) :
    Holds f (entriesOf ops) := by
  have h1 := holds_registerAll ops _ f [] (holds_new naAddr app v b c t) h
  simpa using h1

/-- C1. For a registry reached from `NewFlagHandler` by registrations none of which has
a present but empty alternates list, the usage closure does not panic; what it writes
before the closing blank line all goes to the sink, and its text is the app header followed,
for each section name in first-registration order, by the header titled
`<section> Options` and one row per flag of the section in registration order, the row
being printed from `--name`, `-` and the first alternate (empty without alternates), the
stored default and the usage text. -/
theorem usage_renders_registry (ff : Nat → String) (naAddr : Nat) (app : String)
    (v b c t : Option StringPtr) (ops : List Registration) (f : flagHandler) (out : Writer)
    (hreach : registerAll (NewFlagHandler naAddr app v b c t) ops = some f)
    (halt : ∀ r ∈ ops, r.altNames ≠ some []) :
    ∃ body, Usage ff f out = ⟨body ++ [Println ""], false⟩ ∧
      (∀ w ∈ body, w.dst = out) ∧ textOf body = usageText ff f out ops := by
  have hH := holds_of_reachable naAddr app v b c t ops f hreach
  have hflags := flagMap_getD_of_holds f ops hH
  have hsec := usageSections_ok ff f out f.flagKeys (by
    intro k _ c hc
    rw [hflags k] at hc
    obtain ⟨r, hr, hcr⟩ := altNames_of_mem_flagsIn ops k c hc
    rw [hcr]
    exact halt r hr)
  refine ⟨PrintAppHeader f out ++ f.flagKeys.flatMap (fun k =>
    PrintUsageSectionHeader out (k ++ " Options") ++
      ((f.flagMap k).getD []).flatMap (rowOf ff out)), ?_, ?_, ?_⟩
  · simp [Usage, hsec]
  · intro w hw
    rcases List.mem_append.mp hw with h1 | h1
    · exact dst_PrintAppHeader f out w h1
    · obtain ⟨k, _, hk⟩ := List.mem_flatMap.mp h1
      rcases List.mem_append.mp hk with h2 | h2
      · exact dst_PrintUsageSectionHeader out _ w h2
      · obtain ⟨c2, _, hc2⟩ := List.mem_flatMap.mp h2
        exact dst_PrintUsageLine ff out _ _ _ _ w hc2
  · rw [textOf_append, textOf_flatMap, usageText, hH.1]
    have hfun : (fun k => textOf (PrintUsageSectionHeader out (k ++ " Options") ++
        ((f.flagMap k).getD []).flatMap (rowOf ff out))) = sectionBlock ff out ops := by
      funext k
      rw [textOf_append, textOf_flatMap, hflags k]
      rfl
    rw [hfun]
    rfl

/-- Checks C1 on the end-to-end scenario, and spells out the text it yields there. -/
theorem usage_renders_registry_witness :
    registerAll (NewFlagHandler 0xc000014090 "app" none none none none) verboseOps
        = some verboseHandler ∧
      (∀ r ∈ verboseOps, r.altNames ≠ some []) ∧
      (∃ body, Usage (fun _ => "") verboseHandler Writer.stderr
            = ⟨body ++ [Println ""], false⟩ ∧
          (∀ w ∈ body, w.dst = Writer.stderr) ∧
          textOf body = usageText (fun _ => "") verboseHandler Writer.stderr verboseOps) ∧
      usageText (fun _ => "") verboseHandler Writer.stderr verboseOps =
        "[+] app\n" ++
        "    Version: 0xc000014090 [ Branch: 0xc000014090 | Commit: 0xc000014090 | Tag: 0xc000014090 ]\n" ++
        "\n    General Options:\n" ++
        "    Parameter            Short  Default              Description\n" ++
        "    --verbose                   false                enable verbose logging\n" :=
  ⟨rfl, by decide,
    usage_renders_registry (fun _ => "") 0xc000014090 "app" none none none none verboseOps
      verboseHandler Writer.stderr rfl (by decide),
    by decide⟩

/-! ## Registration: frame and invariant -/

theorem addToSection_flagMap_self (name : String) (d : Value) (u : String)
    (alt : Option (List String)) (f : flagHandler) (s : String) :
    (addToSection name d u alt f s).flagMap s =
      some ((f.flagMap s).getD [] ++ [⟨name, d, u, alt⟩]) := by
  cases h : f.flagMap s <;> simp [addToSection, h, mapSet]

theorem addToSection_flagMap_other (name : String) (d : Value) (u : String)
    (alt : Option (List String)) (f : flagHandler) (s k : String) (hk : k ≠ s) :
    (addToSection name d u alt f s).flagMap k = f.flagMap k := by
  cases h : f.flagMap s <;> simp [addToSection, h, mapSet, hk]

theorem addToSection_flagKeys_of_some (name : String) (d : Value) (u : String)
    (alt : Option (List String)) (f : flagHandler) (s : String) (l : List CommandLineFlag)
    (h : f.flagMap s = some l) : (addToSection name d u alt f s).flagKeys = f.flagKeys := by
  simp [addToSection, h]

/-- C3. When the mapping already has section `S`, registering a further flag under `S`
(given as the single name or as the one-element list) leaves the ordered section-name list as it was, makes the flag list of `S` its previous
list with the new descriptor appended, and leaves the list of every other section as
it was. -/
theorem register_existing_section (f : flagHandler) (r : Registration) (S : String)
    (l : List CommandLineFlag) (hS : f.flagMap S = some l)
    (hsec : r.sec = SectionArg.str S ∨ r.sec = SectionArg.strs [S]) :
    ∃ f2, register f r = some f2 ∧ f2.flagKeys = f.flagKeys ∧
      f2.flagMap S = some (l ++ [descriptorOf r]) ∧
      ∀ T, T ≠ S → f2.flagMap T = f.flagMap T := by
  refine ⟨addToSection r.name r.defaultValue r.usage r.altNames f S, ?_, ?_, ?_, ?_⟩
  · rw [register_eq]
    rcases hsec with h | h <;> rw [h] <;> rfl
  · exact addToSection_flagKeys_of_some _ _ _ _ f S l hS
  · rw [addToSection_flagMap_self, hS]
    rfl
  · intro T hT
    exact addToSection_flagMap_other _ _ _ _ f S T hT

/-- Checks C3 on the scenario registry: a second flag under `General`. -/
theorem register_existing_section_witness :
    verboseHandler.flagMap "General" =
        some [⟨"verbose", .bool false, "enable verbose logging", none⟩] ∧
      ∃ f2, register verboseHandler ⟨"level", .str "General", .int 3, "log level", some ["l"]⟩
          = some f2 ∧
        f2.flagKeys = verboseHandler.flagKeys ∧
        f2.flagMap "General" =
          some ([⟨"verbose", .bool false, "enable verbose logging", none⟩] ++
            [descriptorOf ⟨"level", .str "General", .int 3, "log level", some ["l"]⟩]) ∧
        ∀ T, T ≠ "General" → f2.flagMap T = verboseHandler.flagMap T :=
  ⟨by decide,
    register_existing_section verboseHandler
      ⟨"level", .str "General", .int 3, "log level", some ["l"]⟩ "General"
      [⟨"verbose", .bool false, "enable verbose logging", none⟩] (by decide) (Or.inl rfl)⟩

/-- C10. In every registry reached from `NewFlagHandler` by a sequence of registrations
(single names or lists of names, empty lists and repeated names included), the ordered
section-name list has no duplicates, a name is in the list exactly when the mapping has
an entry for it, and every entry of the mapping is a non-empty flag list. -/
theorem registry_invariant (naAddr : Nat) (app : String) (v b c t : Option StringPtr)
    (ops : List Registration) (f : flagHandler)
    (hreach : registerAll (NewFlagHandler naAddr app v b c t) ops = some f) :
    f.flagKeys.Nodup ∧ (∀ k, k ∈ f.flagKeys ↔ f.flagMap k ≠ none) ∧
      ∀ k l, f.flagMap k = some l → l ≠ [] := by
  obtain ⟨hk, hm⟩ := holds_of_reachable naAddr app v b c t ops f hreach
  refine ⟨?_, ?_, ?_⟩
  · rw [hk]
    exact nodup_firstSeen _
  · intro k
    rw [hk, mem_firstSeen, hm k]
    by_cases h : k ∈ (entriesOf ops).map Prod.fst <;> simp [h]
  · intro k l hl
    rw [hm k] at hl
    by_cases h : k ∈ (entriesOf ops).map Prod.fst
    · rw [if_pos h] at hl
      obtain ⟨e, he, hek⟩ := List.mem_map.mp h
      have hmem : e.2 ∈ l := by
        rw [← Option.some.inj hl]
        exact List.mem_map.mpr ⟨e, List.mem_filter.mpr ⟨he, by simp [hek]⟩, rfl⟩
      exact List.ne_nil_of_mem hmem
    · rw [if_neg h] at hl
      cases hl

/-- Checks C10 on registrations with a repeated section name and an empty section list. -/
theorem registry_invariant_witness :
    registerAll (NewFlagHandler 0xc000014090 "app" none none none none) mixedOps
        = some mixedHandler ∧
      mixedHandler.flagKeys = ["General", "Network"] ∧
      (mixedHandler.flagKeys.Nodup ∧ (∀ k, k ∈ mixedHandler.flagKeys ↔ mixedHandler.flagMap k ≠ none) ∧
        ∀ k l, mixedHandler.flagMap k = some l → l ≠ []) :=
  ⟨rfl, by decide,
    registry_invariant 0xc000014090 "app" none none none none mixedOps mixedHandler rfl⟩

/-! ## Section order in the usage text -/

theorem sectionTitles_append (a b : List Write) :
    sectionTitles (a ++ b) = sectionTitles a ++ sectionTitles b := by
  simp [sectionTitles, List.filter_append]

theorem sectionTitles_PrintAppHeader (f : flagHandler) (out : Writer) :
    sectionTitles (PrintAppHeader f out) = [] := by
  simp [sectionTitles, PrintAppHeader, white, List.filter_cons]

theorem sectionTitles_PrintUsageSectionHeader (out : Writer) (s : String) :
    sectionTitles (PrintUsageSectionHeader out s) = ["\n" ++ level1 ++ s ++ ":\n"] := by
  simp [sectionTitles, PrintUsageSectionHeader, white, blue, List.filter_cons]

theorem sectionTitles_usageFlags (ff : Nat → String) (out : Writer)
    (l : List CommandLineFlag) : sectionTitles (usageFlags ff out l).writes = [] := by
  induction l with
  | nil => simp [usageFlags, sectionTitles]
  | cons c rest ih =>
    unfold usageFlags
    cases hca : c.AltNames with
    | none =>
      simp only [Option.map, sectionTitles_append, ih, List.append_nil]
      simp [sectionTitles, PrintUsageLine, darkWhite, List.filter_cons]
    | some alts =>
      cases alts with
      | nil => simp [sectionTitles]
      | cons a more =>
        simp only [List.get?_cons_zero, Option.map, sectionTitles_append, ih, List.append_nil]
        simp [sectionTitles, PrintUsageLine, darkWhite, List.filter_cons]

theorem sectionTitles_usageSections (ff : Nat → String) (f : flagHandler) (out : Writer)
    (keys : List String) (h : (usageSections ff f out keys).panicked = false) :
    sectionTitles (usageSections ff f out keys).writes =
      keys.map (fun s => "\n" ++ level1 ++ (s ++ " Options") ++ ":\n") := by
  induction keys with
  | nil => simp [usageSections, sectionTitles]
  | cons k rest ih =>
    unfold usageSections at h ⊢
    by_cases hp : (usageFlags ff out ((f.flagMap k).getD [])).panicked = true
    · simp [hp] at h
    · simp only [hp, if_false, Bool.false_eq_true] at h ⊢
      simp only [sectionTitles_append, sectionTitles_PrintUsageSectionHeader,
        sectionTitles_usageFlags, ih h, List.append_nil, List.map_cons, List.singleton_append]

/-- What holds of a flag filed under two sections. Registering under `[A, B]` with
`A ≠ B` appends the same descriptor (name, default, usage, alternates) to the flag list of
`A` and to that of `B`; in a registry reached by registrations the ordered section list is
the first-registration order, and a run of the usage closure that completes writes the
section titles in that order. -/
theorem two_sections_registry_and_title_order (f : flagHandler) (name : String) (d : Value) (u : String)
    (alt : Option (List String)) (A B : String) (hAB : A ≠ B)
    (ff : Nat → String) (naAddr : Nat) (app : String) (v b c t : Option StringPtr)
    (ops : List Registration) (g : flagHandler) (out : Writer)
    (hreach : registerAll (NewFlagHandler naAddr app v b c t) ops = some g)
    (hrun : (Usage ff g out).panicked = false) :
    (∃ f2, register f ⟨name, SectionArg.strs [A, B], d, u, alt⟩ = some f2 ∧
      f2.flagMap A = some ((f.flagMap A).getD [] ++ [⟨name, d, u, alt⟩]) ∧
      f2.flagMap B = some ((f.flagMap B).getD [] ++ [⟨name, d, u, alt⟩])) ∧
    g.flagKeys = sectionOrder ops ∧
    sectionTitles (Usage ff g out).writes =
      (sectionOrder ops).map (fun s => "\n" ++ level1 ++ (s ++ " Options") ++ ":\n") := by
  refine ⟨⟨addToSection name d u alt (addToSection name d u alt f A) B, ?_, ?_, ?_⟩, ?_, ?_⟩
  · rw [register_eq]
    rfl
  · rw [addToSection_flagMap_other _ _ _ _ _ B A hAB, addToSection_flagMap_self]
  · rw [addToSection_flagMap_self,
      addToSection_flagMap_other _ _ _ _ f A B (fun h => hAB h.symm)]
  · exact (holds_of_reachable naAddr app v b c t ops g hreach).1
  · have hk := (holds_of_reachable naAddr app v b c t ops g hreach).1
    unfold Usage at hrun ⊢
    by_cases hp : (usageSections ff g out g.flagKeys).panicked = true
    · simp [hp] at hrun
    · have hp2 : (usageSections ff g out g.flagKeys).panicked = false := by
        simpa using hp
      simp only [hp, if_false, Bool.false_eq_true]
      rw [sectionTitles_append, sectionTitles_append, sectionTitles_PrintAppHeader,
        sectionTitles_usageSections ff g out g.flagKeys hp2, hk]
      simp [sectionTitles, Println, sectionOrder]

/-- The previous statement on the scenario registry and on `mixedOps`. -/
theorem two_sections_registry_and_title_order_check :
    "Network" ≠ "General" ∧
      registerAll (NewFlagHandler 0xc000014090 "app" none none none none) mixedOps
        = some mixedHandler ∧
      (Usage (fun _ => "") mixedHandler Writer.stdout).panicked = false ∧
      ((∃ f2, register verboseHandler
            ⟨"host", SectionArg.strs ["Network", "General"], .string "", "host name", none⟩
            = some f2 ∧
          f2.flagMap "Network" = some ((verboseHandler.flagMap "Network").getD [] ++
            [⟨"host", .string "", "host name", none⟩]) ∧
          f2.flagMap "General" = some ((verboseHandler.flagMap "General").getD [] ++
            [⟨"host", .string "", "host name", none⟩])) ∧
        mixedHandler.flagKeys = sectionOrder mixedOps ∧
        sectionTitles (Usage (fun _ => "") mixedHandler Writer.stdout).writes =
          (sectionOrder mixedOps).map (fun s => "\n" ++ level1 ++ (s ++ " Options") ++ ":\n")) :=
  ⟨by decide, rfl, by decide,
    two_sections_registry_and_title_order verboseHandler "host" (.string "") "host name" none
      "Network" "General" (by decide) (fun _ => "") 0xc000014090 "app" none none none none
      mixedOps mixedHandler Writer.stdout rfl (by decide)⟩

/-! ## The printers -/

theorem textOf_PrintUsageLine (ff : Nat → String) (out : Writer) (p s : String) (d : Value)
    (t : String) :
    textOf (PrintUsageLine ff out p s d t) =
      level1 ++ padRight 20 p ++ " " ++ padRight 6 s ++ " " ++
        padRight 20 (shownDefault ff d) ++ " " ++ t ++ "\n" := by
  cases d with
  | string x =>
    by_cases hx : x = ""
    · subst hx
      simp [PrintUsageLine, darkWhite, textOf, parameterFormat, shownDefault, fmtV]
    · simp [PrintUsageLine, darkWhite, textOf, parameterFormat, shownDefault, fmtV, hx]
  | _ => simp [PrintUsageLine, darkWhite, textOf, parameterFormat, shownDefault, fmtV]

theorem length_padRight (w : Nat) (x : String) : (padRight w x).length = max w x.length := by
  simp only [padRight, String.length_append, String.length_mk, List.length_replicate]
  omega

/-- C8. `PrintUsageLine` called with the empty string as default fills the default column
with the quote pair padded to the width of 20, which is not the all-blank column; any
other default, string or not, fills it with its own `%v` text padded to that width. -/
theorem empty_string_default_is_quoted (ff : Nat → String) (out : Writer) (p s t : String)
    (d : Value) (hd : d ≠ Value.string "") :
    textOf (PrintUsageLine ff out p s (Value.string "") t) =
        level1 ++ padRight 20 p ++ " " ++ padRight 6 s ++ " " ++ "\"\"                  " ++
          " " ++ t ++ "\n" ∧
      "\"\"                  " = padRight 20 "\"\"" ∧
      "\"\"                  " ≠ padRight 20 "" ∧
      textOf (PrintUsageLine ff out p s d t) =
        level1 ++ padRight 20 p ++ " " ++ padRight 6 s ++ " " ++ padRight 20 (fmtV ff d) ++
          " " ++ t ++ "\n" := by
  refine ⟨?_, by decide, by decide, ?_⟩
  · rw [textOf_PrintUsageLine]
    have h1 : shownDefault ff (Value.string "") = "\"\"" := by simp [shownDefault]
    have h2 : padRight 20 "\"\"" = "\"\"                  " := by decide
    rw [h1, h2]
  · rw [textOf_PrintUsageLine]
    simp [shownDefault, hd]

/-- Checks C8 with a boolean default next to the empty-string default. -/
theorem empty_string_default_is_quoted_witness :
    Value.bool false ≠ Value.string "" ∧
      (textOf (PrintUsageLine (fun _ => "") Writer.stdout "--host" "-H" (Value.string "")
          "host name") =
          level1 ++ padRight 20 "--host" ++ " " ++ padRight 6 "-H" ++ " " ++
            "\"\"                  " ++ " " ++ "host name" ++ "\n" ∧
        "\"\"                  " = padRight 20 "\"\"" ∧
        "\"\"                  " ≠ padRight 20 "" ∧
        textOf (PrintUsageLine (fun _ => "") Writer.stdout "--host" "-H" (Value.bool false)
          "host name") =
          level1 ++ padRight 20 "--host" ++ " " ++ padRight 6 "-H" ++ " " ++
            padRight 20 (fmtV (fun _ => "") (Value.bool false)) ++ " " ++ "host name" ++ "\n") :=
  ⟨by decide,
    empty_string_default_is_quoted (fun _ => "") Writer.stdout "--host" "-H" "host name"
      (Value.bool false) (by decide)⟩

/-- C9, as stated, fails for the empty string as default: the row does not hold the text
of the default (nothing, padded to 20 blanks) but the quote pair. -/
theorem usage_row_empty_default_differs :
    textOf (PrintUsageLine (fun _ => "") Writer.stdout "--host" "-H" (Value.string "")
        "host name") ≠
      claimedRow (fun _ => "") "--host" "-H" (Value.string "") "host name" := by
  decide

/-- C9, amended. The row `PrintUsageLine` writes is the four-space indent, `p` padded on
the right to 20 characters, a space, `s` padded to 6, a space, the shown default (the `%v`
text of `d`, or the quote pair when `d` is the empty string) padded to 20, a space, `t` and a
newline; padding counts characters and never truncates (a padded value starts with the
value and is as long as the longer of the value and the width), so the row contains `p`,
`s`, the shown default and `t` as contiguous substrings and is at least
4+20+1+6+1+20+1 characters plus the length of `t` long. -/
theorem usage_row_layout (ff : Nat → String) (out : Writer) (p s t : String) (d : Value)
    (w : Nat) (x : String) :
    textOf (PrintUsageLine ff out p s d t) =
        level1 ++ padRight 20 p ++ " " ++ padRight 6 s ++ " " ++
          padRight 20 (shownDefault ff d) ++ " " ++ t ++ "\n" ∧
      (padRight w x).length = max w x.length ∧
      x.data <+: (padRight w x).data ∧
      p.data <:+: (textOf (PrintUsageLine ff out p s d t)).data ∧
      s.data <:+: (textOf (PrintUsageLine ff out p s d t)).data ∧
      (shownDefault ff d).data <:+: (textOf (PrintUsageLine ff out p s d t)).data ∧
      t.data <:+: (textOf (PrintUsageLine ff out p s d t)).data ∧
      4 + 20 + 1 + 6 + 1 + 20 + 1 + t.length ≤
        (textOf (PrintUsageLine ff out p s d t)).length := by
  rw [textOf_PrintUsageLine]
  refine ⟨rfl, length_padRight w x, ⟨_, rfl⟩, ?_, ?_, ?_, ?_, ?_⟩
  · refine ⟨level1.data, (String.mk (List.replicate (20 - p.length) (Char.ofNat 32))).data ++
      (" " ++ padRight 6 s ++ " " ++ padRight 20 (shownDefault ff d) ++ " " ++ t ++ "\n").data, ?_⟩
    simp [padRight, String.data_append, List.append_assoc]
  · refine ⟨(level1 ++ padRight 20 p ++ " ").data,
      (String.mk (List.replicate (6 - s.length) (Char.ofNat 32))).data ++
      (" " ++ padRight 20 (shownDefault ff d) ++ " " ++ t ++ "\n").data, ?_⟩
    simp [padRight, String.data_append, List.append_assoc]
  · refine ⟨(level1 ++ padRight 20 p ++ " " ++ padRight 6 s ++ " ").data,
      (String.mk (List.replicate (20 - (shownDefault ff d).length) (Char.ofNat 32))).data ++
      (" " ++ t ++ "\n").data, ?_⟩
    simp [padRight, String.data_append, List.append_assoc]
  · refine ⟨(level1 ++ padRight 20 p ++ " " ++ padRight 6 s ++ " " ++
      padRight 20 (shownDefault ff d) ++ " ").data, "\n".data, ?_⟩
    simp [padRight, String.data_append, List.append_assoc]
  · simp only [String.length_append, length_padRight]
    have h1 : level1.length = 4 := by decide
    have h2 : (" " : String).length = 1 := by decide
    have h3 : ("\n" : String).length = 1 := by decide
    rw [h1, h2, h3]
    omega

/-- C7, as stated, fails: the title line `PrintUsageSectionHeader` writes is the title
followed by a colon, whether it is handed the bare section name or, as `Usage` does, the
name already suffixed with ` Options`. -/
theorem section_header_differs :
    textOf (PrintUsageSectionHeader Writer.stdout "General") ≠ claimedSectionHeader "General" ∧
      textOf (PrintUsageSectionHeader Writer.stdout ("General" ++ " Options")) ≠
        claimedSectionHeader "General" ∧
      textOf (PrintUsageSectionHeader Writer.stdout "General") =
        "\n    General:\n" ++ columnHeaderRow := by
  decide

/-- C7, amended. For every title `t`, `PrintUsageSectionHeader output t` writes, to
`output`, a blank line, then the four-space indent followed by `t` and a colon, then the
column-header row with `Parameter` left-justified in 20 columns, `Short` in 6, `Default`
in 20 and `Description` at free width; the suffix ` Options` comes from `Usage`, which
starts each section by calling it with the section name suffixed with ` Options`. -/
theorem section_header_layout (ff : Nat → String) (f : flagHandler) (out : Writer)
    (t key : String) (rest : List String) :
    textOf (PrintUsageSectionHeader out t) =
        "\n" ++ (level1 ++ t ++ ":" ++ "\n") ++ columnHeaderRow ∧
      columnHeaderRow =
        level1 ++ padRight 20 "Parameter" ++ " " ++ padRight 6 "Short" ++ " " ++
          padRight 20 "Default" ++ " " ++ "Description" ++ "\n" ∧
      (∀ w ∈ PrintUsageSectionHeader out t, w.dst = out) ∧
      ∃ more, (usageSections ff f out (key :: rest)).writes =
        PrintUsageSectionHeader out (key ++ " Options") ++ more := by
  refine ⟨?_, by decide, dst_PrintUsageSectionHeader out t, ?_⟩
  · have h : parameterFormat level1 "Parameter" "Short" "Default" "Description"
        = columnHeaderRow := by decide
    simp only [PrintUsageSectionHeader, blue, white, textOf, h, String.append_empty]
    have h2 : (":\n" : String) = ":" ++ "\n" := by decide
    rw [h2]
    simp only [String.append_assoc]
  · unfold usageSections
    by_cases hp : (usageFlags ff out ((f.flagMap key).getD [])).panicked = true
    · exact ⟨(usageFlags ff out ((f.flagMap key).getD [])).writes, by simp [hp]⟩
    · exact ⟨(usageFlags ff out ((f.flagMap key).getD [])).writes ++
        (usageSections ff f out rest).writes, by simp [hp]⟩

/-- C4, at its failing input: a flag registered with a present but empty list of
alternates makes the usage closure panic (index 0 of an empty slice), for the scenario
flag and for every flag, handler, sink and single section. -/
theorem usage_panics_on_empty_alternates (ff : Nat → String) (naAddr : Nat) (app : String)
    (v b c t : Option StringPtr) (name s u : String) (d : Value) (out : Writer) :
    (register emptyHandler
        ⟨"verbose", SectionArg.str "General", Value.bool false, "enable verbose logging",
          some []⟩).map (fun f => Usage (fun _ => "") f Writer.stdout) =
      some ⟨PrintAppHeader emptyHandler Writer.stdout ++
        PrintUsageSectionHeader Writer.stdout "General Options", true⟩ ∧
    (register (NewFlagHandler naAddr app v b c t) ⟨name, SectionArg.str s, d, u, some []⟩).map
        (fun f => (Usage ff f out).panicked) = some true := by
  refine ⟨by decide, ?_⟩
  rw [register_eq]
  simp [addToFlagMap, addToSection, NewFlagHandler, mapSet, Usage, usageSections, usageFlags]

/-- C6, at its failing input: with a buffer as sink, the closing blank line of the usage
closure is written to standard output and the buffer receives the text without it; and
on every run that does not panic the last write is that newline on standard output. -/
theorem usage_blank_line_on_stdout (ff : Nat → String) (f : flagHandler) (out : Writer) :
    textTo Writer.stdout (Usage (fun _ => "") verboseHandler (Writer.buffer 0)).writes = "\n" ∧
      textTo (Writer.buffer 0) (Usage (fun _ => "") verboseHandler (Writer.buffer 0)).writes =
        usageText (fun _ => "") verboseHandler (Writer.buffer 0) verboseOps ∧
      ((Usage ff f out).panicked = true ∨
        (Usage ff f out).writes.getLast? = some ⟨Writer.stdout, Colour.plain, "\n"⟩) := by
  refine ⟨by decide, by decide, ?_⟩
  unfold Usage
  by_cases hp : (usageSections ff f out f.flagKeys).panicked = true
  · left
    simp [hp]
  · right
    simp [hp, Println]

/-- C5, at its failing input: the version line that `PrintAppHeader` writes holds the
`%v` text of the four pointers, that is their addresses in hexadecimal, and not the strings
they point to; for version `1.0.0` and the other three absent, whatever the addresses,
the header is not the text `Version: 1.0.0 [ Branch: N/A | Commit: N/A | Tag: N/A ]`. -/
theorem app_header_prints_addresses (naAddr a : Nat) (out : Writer) :
    textOf (PrintAppHeader
        (NewFlagHandler 0xc000014090 "app" (some ⟨0xc000014080, "1.0.0"⟩) none none none)
        Writer.stdout) =
      "[+] app\n" ++
      "    Version: 0xc000014080 [ Branch: 0xc000014090 | Commit: 0xc000014090 | Tag: 0xc000014090 ]\n" ∧
    claimedAppHeader "app" (some "1.0.0") none none none =
      "[+] app\n" ++
      "    Version: 1.0.0 [ Branch: N/A | Commit: N/A | Tag: N/A ]\n" ∧
    textOf (PrintAppHeader (NewFlagHandler naAddr "app" (some ⟨a, "1.0.0"⟩) none none none) out)
      ≠ claimedAppHeader "app" (some "1.0.0") none none none := by
  refine ⟨by decide, by decide, ?_⟩
  intro h
  have h2 := congrArg String.data h
  simp [textOf, PrintAppHeader, white, NewFlagHandler, y, dw, Sprint, claimedAppHeader,
    level1, String.data_append] at h2

/-- C2, at its failing input: a flag registered under the section list `["A", "B"]` with
a present but empty list of alternates is stored, with the same name, default and usage,
at the end of both flag lists, but it is rendered in neither section: the usage closure
panics (index 0 of an empty slice) right after the `A Options` header, before any row
and before section `B`. The same holds for every name, default, usage, pair of section
names, handler and sink. -/
theorem two_section_flag_not_rendered (ff : Nat → String) (naAddr : Nat) (app : String)
    (v b c t : Option StringPtr) (name u A B : String) (d : Value) (out : Writer) :
    (register emptyHandler
        ⟨"host", SectionArg.strs ["A", "B"], Value.string "h", "host name", some []⟩).map
        (fun f => (f.flagKeys, f.flagMap "A", f.flagMap "B")) =
      some (["A", "B"], some [⟨"host", Value.string "h", "host name", some []⟩],
        some [⟨"host", Value.string "h", "host name", some []⟩]) ∧
    (register emptyHandler
        ⟨"host", SectionArg.strs ["A", "B"], Value.string "h", "host name", some []⟩).map
        (fun f => ((Usage (fun _ => "") f Writer.stdout).panicked,
          textOf (Usage (fun _ => "") f Writer.stdout).writes)) =
      some (true,
        "[+] app\n" ++
        "    Version: 0xc000014090 [ Branch: 0xc000014090 | Commit: 0xc000014090 | Tag: 0xc000014090 ]\n" ++
        "\n    A Options:\n" ++
        "    Parameter            Short  Default              Description\n") ∧
    (register (NewFlagHandler naAddr app v b c t)
        ⟨name, SectionArg.strs [A, B], d, u, some []⟩).map
        (fun f => Usage ff f out) =
      some ⟨PrintAppHeader (NewFlagHandler naAddr app v b c t) out ++
        PrintUsageSectionHeader out (A ++ " Options"), true⟩ := by
  refine ⟨by decide, by decide, ?_⟩
  rw [register_eq]
  by_cases hAB : B = A
  · subst hAB
    simp [addToFlagMap, addToSection, NewFlagHandler, mapSet, Usage, usageSections,
      usageFlags, PrintAppHeader]
  · have hBA : ¬ A = B := fun h => hAB h.symm
    simp [addToFlagMap, addToSection, NewFlagHandler, mapSet, Usage, usageSections,
      usageFlags, PrintAppHeader, hAB, hBA]

end PrettyFlags
